import Mathlib

/-!
# ESP8266 WiFi web server: front-end classification, status formatting, request log

The repository source `src/index.h` holds the web page served by the firmware.
Its script contains two functions with real logic:

* `updateClients` : derives a device label and a browser label from each
  request's `userAgent` string with `String.prototype.includes` tests;
* `updateStatus`  : turns the `rssi` reading into a signal-quality label and the
  `uptime` seconds into hours / minutes / seconds.

Both are embedded below, statement by statement.  JavaScript strings are
modelled by Lean `String`s (all search tokens are ASCII, so code-unit and
code-point substring search agree) and the integer `rssi` by `Int`.  The
`uptime` arithmetic is modelled on IEEE 754 binary64 numbers, as JavaScript
computes it: the integer written in the JSON body is rounded to the nearest
double, `/` is the correctly rounded quotient, `%` is exact.

The firmware side (`record`, `listRecent`) is not part of `index.h`; the
request log is therefore modelled from the specification text and every such
definition says so in its doc comment.
-/

/-! ## `String.prototype.includes` -/

/-- Scan of `String.prototype.includes`: try every start position of the
subject, left to right, and compare the search string there. -/
def includesList (searchString : List Char) : List Char → Bool
  | [] => searchString.isPrefixOf []
  | c :: cs => searchString.isPrefixOf (c :: cs) || includesList searchString cs

/-- The call `s.includes(searchString)` of the script. -/
def includes (s searchString : String) : Bool :=
  includesList searchString.data s.data

/-- Case-sensitive substring relation used to state the classifier's contract:
`tok` occurs in `ua` when `ua = l ++ tok ++ r` for some `l`, `r`
(`List.IsInfix` on the characters). -/
def IsSubstring (tok ua : String) : Prop :=
  tok.data <:+: ua.data

instance IsSubstring.decidable (tok ua : String) : Decidable (IsSubstring tok ua) :=
  inferInstanceAs (Decidable (tok.data <:+: ua.data))

/-! ## `updateClients` (index.h, lines 473-508) -/

namespace updateClients

/-- Lines 473-496: the pair `(deviceType, deviceIcon)` after the device
`if / else if` chain. Both variables start at their `Unknown` defaults. -/
def device (ua : String) : String × String :=
  if includes ua "iPhone" then ("iPhone", "📱")
  else if includes ua "iPad" then ("iPad", "📱")
  else if includes ua "Android" then ("Android", "📱")
  else if includes ua "Macintosh" then ("Mac", "💻")
  else if includes ua "Windows" then ("Windows PC", "💻")
  else if includes ua "Linux" then ("Linux", "💻")
  else ("Unknown", "🖥️")

/-- Value of the variable `deviceType` after the chain. -/
def deviceType (ua : String) : String := (device ua).1

/-- Value of the variable `deviceIcon` after the chain. -/
def deviceIcon (ua : String) : String := (device ua).2

/-- Lines 498-508: value of the variable `browser` after the browser chain. -/
def browser (ua : String) : String :=
  if includes ua "Chrome" && !includes ua "Edg" then "Chrome"
  else if includes ua "Safari" && !includes ua "Chrome" then "Safari"
  else if includes ua "Firefox" then "Firefox"
  else if includes ua "Edg" then "Edge"
  else "Unknown"

/-- The classification `(deviceFamily, browserFamily)` shown for one request:
the two labels `updateClients` computes from the same `ua`. -/
def classify (ua : String) : String × String :=
  (deviceType ua, browser ua)

/-- The six device tokens, in the order the chain tests them. -/
def deviceTokens : List String :=
  ["iPhone", "iPad", "Android", "Macintosh", "Windows", "Linux"]

/-- The four browser tokens tested by the browser chain. -/
def browserTokens : List String :=
  ["Chrome", "Safari", "Firefox", "Edg"]

/-- All tokens of both tables except the listed ones. -/
def otherTokens (shown : List String) : List String :=
  (deviceTokens ++ browserTokens).filter (fun t => !shown.contains t)

/-- A piece of text that contains none of the given tokens. -/
def FreeOf (toks : List String) (part : String) : Prop :=
  ∀ t ∈ toks, ¬ IsSubstring t part

instance FreeOf.decidable (toks : List String) (part : String) : Decidable (FreeOf toks part) :=
  inferInstanceAs (Decidable (∀ t ∈ toks, ¬ IsSubstring t part))

end updateClients

/-! ## IEEE 754 binary64 arithmetic of JavaScript numbers -/

namespace Binary64

/-- Floor of the base-2 logarithm of `n` by repeated halving (0 for `n < 2`);
the first argument bounds the number of halvings. -/
def log2Fuel : Nat → Nat → Nat
  | 0, _ => 0
  | fuel + 1, n => if n < 2 then 0 else log2Fuel fuel (n / 2) + 1

/-- Floor of the base-2 logarithm of `n`, 0 at 0. -/
def floorLog2 (n : Nat) : Nat := log2Fuel n n

/-- Floor of the base-2 logarithm of the rational `a / b` (`a`, `b` positive):
the binary exponent of `a / b`. -/
def floorLog2Ratio (a b : Nat) : Int :=
  if b * 2 ^ (floorLog2 a - floorLog2 b) ≤ a * 2 ^ (floorLog2 b - floorLog2 a) then
    (floorLog2 a : Int) - (floorLog2 b : Int)
  else (floorLog2 a : Int) - (floorLog2 b : Int) - 1

/-- The integer nearest to the rational `a / b`, ties to the even one. -/
def roundHalfEven (a b : Nat) : Nat :=
  if 2 * (a % b) < b then a / b
  else if b < 2 * (a % b) then a / b + 1
  else if (a / b) % 2 = 0 then a / b
  else a / b + 1

/-- Round-to-nearest, ties-to-even, of the non-negative rational `a / b` to a
53-bit significand: with `e = floorLog2Ratio a b - 52`, the significand is the
integer nearest to `(a / b) / 2 ^ e` and the result is `significand * 2 ^ e`,
returned as a pair `(num, shift)` that stands for `num / 2 ^ shift`. The
exponent range is not limited here (no subnormals, no overflow). -/
def roundNearest (a b : Nat) : Nat × Nat :=
  (roundHalfEven (a * 2 ^ (52 - floorLog2Ratio a b).toNat) (b * 2 ^ (floorLog2Ratio a b - 52).toNat)
      * 2 ^ (floorLog2Ratio a b - 52).toNat,
   (52 - floorLog2Ratio a b).toNat)

end Binary64

/-! ## `updateStatus` (index.h, lines 427-441) -/

namespace updateStatus

/-- Lines 428-432: the label `signalQuality` for the reading `rssi`. -/
def signalQuality (rssi : Int) : String :=
  if rssi < -80 then "Poor"
  else if rssi < -70 then "Fair"
  else if rssi < -60 then "Good"
  else "Excellent"

/-- Line 436, `const uptime = data.system.uptime`: the non-negative integer `n`
written in the JSON body, read as a JavaScript number. The value is the
nearest double; `none` stands for `Infinity` (rounded exponent above 1023). -/
def jsonNumber (n : Nat) : Option Nat :=
  if Binary64.floorLog2 ((Binary64.roundNearest n 1).1 / 2 ^ (Binary64.roundNearest n 1).2) < 1024 then
    some ((Binary64.roundNearest n 1).1 / 2 ^ (Binary64.roundNearest n 1).2)
  else none

/-- The operator `/` on two numbers that hold non-negative integers, `y > 0`:
the correctly rounded quotient. -/
def divide (x y : Nat) : Nat × Nat := Binary64.roundNearest x y

/-- The call `Math.floor(d)` on a non-negative double `d = d.1 / 2 ^ d.2`. -/
def mathFloor (d : Nat × Nat) : Nat := d.1 / 2 ^ d.2

/-- Line 437: `Math.floor(uptime / 3600)`, for the integer `uptime` sent in the
JSON body; `none` when the number read is not finite. -/
def hours (uptime : Nat) : Option Nat :=
  (jsonNumber uptime).map (fun u => mathFloor (divide u 3600))

/-- Line 438: `Math.floor((uptime % 3600) / 60)`; the operator `%` is exact on
doubles. -/
def minutes (uptime : Nat) : Option Nat :=
  (jsonNumber uptime).map (fun u => mathFloor (divide (u % 3600) 60))

/-- Line 439: `uptime % 60`. -/
def seconds (uptime : Nat) : Option Nat :=
  (jsonNumber uptime).map (fun u => u % 60)

/-- Position of a label in the order Poor < Fair < Good < Excellent
(any other text ranks with Poor). -/
def qualityRank (label : String) : Nat :=
  if label = "Excellent" then 3
  else if label = "Good" then 2
  else if label = "Fair" then 1
  else 0

end updateStatus

/-! ## Request log (firmware side, modelled from the specification) -/

/-- Modelled from the spec: the `RequestRecord` of section 3, one logged inbound
request; the firmware sketch that declares it is not in `index.h`. -/
structure RequestRecord where
  sourceAddress : String
  endpointPath : String
  userAgentRaw : String
  timestampSeconds : Nat
  deriving DecidableEq, Repr, Inhabited

/-- Modelled from the spec: what `totalCount` does at its integer width
boundary (section 3: it saturates or wraps, the implementation defines which);
the firmware sketch that fixes it is not in `index.h`. -/
inductive CounterOverflow where
  | wrap
  | saturate
  deriving DecidableEq, Repr

/-- Modelled from the spec: the fixed sizes of the log, which the firmware
sketch (not in `index.h`) sets: the ring-buffer capacity `N`, the maximum
stored lengths of `endpointPath` and `userAgentRaw`, and the integer width in
bits of `totalCount` with its behaviour at the boundary. -/
structure LogLimits where
  capacity : Nat
  maxPathLength : Nat
  maxUserAgentLength : Nat
  counterWidth : Nat
  counterOverflow : CounterOverflow

/-- Modelled from the spec: the largest value a counter of `counterWidth` bits
holds, the integer width boundary of section 3. -/
def counterMax (lim : LogLimits) : Nat :=
  2 ^ lim.counterWidth - 1

/-- Modelled from the spec: the increment of `totalCount` (section 4.1) on a
counter of `counterWidth` bits: at the boundary it wraps to zero or stays at
the maximum (section 3); the firmware routine is not in `index.h`. -/
def incrementCount (lim : LogLimits) (count : Nat) : Nat :=
  match lim.counterOverflow with
  | CounterOverflow.wrap => (count + 1) % 2 ^ lim.counterWidth
  | CounterOverflow.saturate => if count < counterMax lim then count + 1 else count

/-- Modelled from the spec: the inputs of one call
`record(sourceAddress, endpointPath, userAgentRaw)` of section 4.1 together with
the device uptime read at capture time; the firmware routine is not in `index.h`. -/
structure Request where
  sourceAddress : String
  endpointPath : String
  userAgentRaw : String
  uptimeSeconds : Nat

/-- Modelled from the spec: the `RequestLog` of section 3, a fixed array of
`N` slots with `writeCursor` and `totalCount`; the firmware sketch that owns it
is not in `index.h`. `totalCount` is a counter of `counterWidth` bits: `record`
keeps it at most `counterMax`. -/
structure RequestLog where
  slots : List RequestRecord
  writeCursor : Nat
  totalCount : Nat

/-- Modelled from the spec: the `ClientsView` returned by `listRecent`
(section 4.4); the firmware handler is not in `index.h`. -/
structure ClientsView where
  totalCount : Nat
  records : List RequestRecord

/-- Modelled from the spec: silent truncation to a maximum stored length that
preserves the prefix (section 4.1); the firmware routine is not in `index.h`. -/
def truncate (maxLength : Nat) (s : String) : String :=
  String.mk (s.data.take maxLength)

/-- Modelled from the spec: the record written for one call of `record`
(sections 3 and 4.1): address as captured, path and user agent truncated,
timestamp the uptime at capture; the firmware routine is not in `index.h`. -/
def makeRecord (lim : LogLimits) (rq : Request) : RequestRecord :=
  { sourceAddress := rq.sourceAddress
    endpointPath := truncate lim.maxPathLength rq.endpointPath
    userAgentRaw := truncate lim.maxUserAgentLength rq.userAgentRaw
    timestampSeconds := rq.uptimeSeconds }

/-- Modelled from the spec: the log at process start, initialised empty
(section 3): `N` blank slots, cursor and counter at zero; the firmware
initialisation is not in `index.h`. -/
def RequestLog.empty (lim : LogLimits) : RequestLog :=
  { slots := List.replicate lim.capacity default
    writeCursor := 0
    totalCount := 0 }

/-- Modelled from the spec: `record` of section 4.1: write the new record at
`writeCursor`, advance `writeCursor = (writeCursor + 1) mod N`, increment
`totalCount` unconditionally, within its integer width (section 3); the
firmware routine is not in `index.h`. -/
def record (lim : LogLimits) (log : RequestLog) (rq : Request) : RequestLog :=
  { slots := log.slots.set log.writeCursor (makeRecord lim rq)
    writeCursor := (log.writeCursor + 1) % lim.capacity
    totalCount := incrementCount lim log.totalCount }

/-- Modelled from the spec: the slot immediately before `idx`, index arithmetic
wrapping modulo `N` (section 4.4); the firmware routine is not in `index.h`. -/
def previousSlot (lim : LogLimits) (idx : Nat) : Nat :=
  (idx + lim.capacity - 1) % lim.capacity

/-- Modelled from the spec: the backward walk of section 4.4: emit the slot at
`idx`, step to the previous slot, for the given number of entries; the firmware
routine is not in `index.h`. -/
def walkBackward (lim : LogLimits) (slots : List RequestRecord) : Nat → Nat → List RequestRecord
  | _, 0 => []
  | idx, k + 1 => slots.getD idx default :: walkBackward lim slots (previousSlot lim idx) k

/-- Modelled from the spec: `listRecent` of section 4.4: the counter, and the
ring buffer read newest-first, starting at the slot immediately before
`writeCursor` and walking backward `min(N, totalCount)` entries; the firmware
handler is not in `index.h`. -/
def listRecent (lim : LogLimits) (log : RequestLog) : ClientsView :=
  { totalCount := log.totalCount
    records := walkBackward lim log.slots (previousSlot lim log.writeCursor)
      (min lim.capacity log.totalCount) }

/-- Modelled from the spec: the log after a sequence of calls to `record`, in
order, starting from the empty log of process start. -/
def recordAll (lim : LogLimits) (rqs : List Request) : RequestLog :=
  rqs.foldl (record lim) (RequestLog.empty lim)

/-! ## Sample data -/

/-- A user agent as sent by Microsoft Edge on Windows: it carries the tokens
`Chrome`, `Safari` and `Edg` at once. -/
def edgeUserAgent : String :=
  "Mozilla/5.0 (Windows NT 10.0; Win64; x64) AppleWebKit/537.36 (KHTML, like Gecko) Chrome/120.0.0.0 Safari/537.36 Edg/120.0.0.0"

/-- A log with three slots that stores at most 8 characters of a path and 12
of a user agent, with a 32-bit wrapping counter. -/
def sampleLimits : LogLimits :=
  { capacity := 3, maxPathLength := 8, maxUserAgentLength := 12,
    counterWidth := 32, counterOverflow := CounterOverflow.wrap }

/-- Four requests, one more than `sampleLimits.capacity`. -/
def sampleRequests : List Request :=
  [ { sourceAddress := "1.2.3.4", endpointPath := "/led", userAgentRaw := "Mozilla/5.0 (iPhone) Safari", uptimeSeconds := 10 },
    { sourceAddress := "5.6.7.8", endpointPath := "/status", userAgentRaw := "Mozilla/5.0 (Windows) Chrome", uptimeSeconds := 11 },
    { sourceAddress := "1.2.3.4", endpointPath := "/clients", userAgentRaw := "Mozilla/5.0 (Android) Firefox", uptimeSeconds := 12 },
    { sourceAddress := "9.9.9.9", endpointPath := "/led?state=toggle", userAgentRaw := "curl/8.0", uptimeSeconds := 12 } ]

/-- A two-slot log whose counter is 8 bits wide, wrapping or saturating. -/
def byteCounterLimits (overflow : CounterOverflow) : LogLimits :=
  { capacity := 2, maxPathLength := 32, maxUserAgentLength := 64,
    counterWidth := 8, counterOverflow := overflow }

/-- A status poll, as the page sends every five seconds; two polls within the
same second of uptime give equal records. -/
def pollRequest : Request :=
  { sourceAddress := "1.2.3.4", endpointPath := "/status", userAgentRaw := "curl/8.0",
    uptimeSeconds := 7 }

set_option maxRecDepth 100000

/-! ## Substring search: the scan agrees with the substring relation -/

theorem includesList_iff_infix (pat s : List Char) :
    includesList pat s = true ↔ pat <:+: s := by
  induction s with
  | nil => simp [includesList]
  | cons c cs ih => simp [includesList, List.infix_cons_iff, ih]

theorem includes_iff (ua tok : String) : includes ua tok = true ↔ IsSubstring tok ua :=
  includesList_iff_infix tok.data ua.data

/-- A search string whose tail does not hold the character `c` cannot straddle
the boundary in front of `c`: it occurs in `x ++ c :: y` only inside `x` or
inside `c :: y`. -/
theorem infix_append_cons_split (pat x y : List Char) (c : Char) (hc : c ∉ pat.tail)
    (h : pat <:+: x ++ c :: y) : pat <:+: x ∨ pat <:+: c :: y := by
  induction x with
  | nil => exact Or.inr h
  | cons d x ih =>
    rw [List.cons_append, List.infix_cons_iff] at h
    rcases h with h | h
    · rcases List.prefix_or_prefix_of_prefix h (List.prefix_append (d :: x) (c :: y)) with h1 | h1
      · exact Or.inl h1.isInfix
      · obtain ⟨q, rfl⟩ := h1
        have hq : q <+: c :: y := (List.prefix_append_right_inj (d :: x)).1 h
        cases q with
        | nil => exact Or.inl (by simp)
        | cons e q =>
          have he : e = c := (List.cons_prefix_cons.1 hq).1
          exact absurd (by simp [he]) hc
    · rcases ih h with h1 | h1
      · exact Or.inl (List.IsInfix.trans h1 (List.suffix_cons d x).isInfix)
      · exact Or.inr h1

theorem includesList_append_cons (pat x y : List Char) (c : Char) (hc : c ∉ pat.tail) :
    includesList pat (x ++ c :: y) = (includesList pat x || includesList pat (c :: y)) := by
  rw [Bool.eq_iff_iff]
  simp only [Bool.or_eq_true, includesList_iff_infix]
  constructor
  · exact infix_append_cons_split pat x y c hc
  · rintro (h | h)
    · exact List.IsInfix.trans h (List.infix_append' [] x (c :: y))
    · exact List.IsInfix.trans h (List.suffix_append x (c :: y)).isInfix

theorem includes_first_token (a t1 b t2 c : String) :
    includes (a ++ t1 ++ b ++ t2 ++ c) t1 = true := by
  rw [includes_iff]
  exact ⟨a.data, b.data ++ t2.data ++ c.data, by simp [String.data_append]⟩

theorem includes_second_token (a t1 b t2 c : String) :
    includes (a ++ t1 ++ b ++ t2 ++ c) t2 = true := by
  rw [includes_iff]
  exact ⟨a.data ++ t1.data ++ b.data, c.data, by simp [String.data_append]⟩

/-- A search string `pat` that occurs in none of the parts `a`, `b`, `c`, that
cannot straddle the boundary in front of either token (`h1`, `h2`) and that is
not found at any start position inside either token (`s1`, `s2`) does not occur
in `a ++ t1 ++ b ++ t2 ++ c`. -/
theorem includes_between_tokens (pat a t1 b t2 c : String) (c1 c2 : Char) (r1 r2 : List Char)
    (e1 : t1.data = c1 :: r1) (e2 : t2.data = c2 :: r2)
    (h1 : c1 ∉ pat.data.tail) (h2 : c2 ∉ pat.data.tail)
    (s1 : ∀ y, includesList pat.data (c1 :: r1 ++ y) = includesList pat.data y)
    (s2 : ∀ y, includesList pat.data (c2 :: r2 ++ y) = includesList pat.data y)
    (ha : ¬ IsSubstring pat a) (hb : ¬ IsSubstring pat b) (hc : ¬ IsSubstring pat c) :
    includes (a ++ t1 ++ b ++ t2 ++ c) pat = false := by
  rw [← includes_iff, Bool.not_eq_true] at ha hb hc
  unfold includes at ha hb hc ⊢
  simp only [String.data_append, List.append_assoc, e1, e2]
  rw [List.cons_append, includesList_append_cons _ _ _ _ h1, ha, Bool.false_or,
    ← List.cons_append, s1, List.cons_append, includesList_append_cons _ _ _ _ h2, hb,
    Bool.false_or, ← List.cons_append, s2, hc]

/-! ## `updateClients`: device and browser classification -/

namespace updateClients

/-- C1: the device label follows the precedence iPhone, iPad, Android,
Macintosh, Windows, Linux of the `if / else if` chain, with case-sensitive
substring tests: a label is returned exactly when its token occurs in `ua` and
no token of higher precedence does, and `Unknown` exactly when none occurs. -/
theorem deviceType_precedence (ua : String) :
    (deviceType ua = "iPhone" ↔ IsSubstring "iPhone" ua) ∧
    (deviceType ua = "iPad" ↔ IsSubstring "iPad" ua ∧ ¬ IsSubstring "iPhone" ua) ∧
    (deviceType ua = "Android" ↔ IsSubstring "Android" ua ∧
      ¬ IsSubstring "iPhone" ua ∧ ¬ IsSubstring "iPad" ua) ∧
    (deviceType ua = "Mac" ↔ IsSubstring "Macintosh" ua ∧
      ¬ IsSubstring "iPhone" ua ∧ ¬ IsSubstring "iPad" ua ∧ ¬ IsSubstring "Android" ua) ∧
    (deviceType ua = "Windows PC" ↔ IsSubstring "Windows" ua ∧
      ¬ IsSubstring "iPhone" ua ∧ ¬ IsSubstring "iPad" ua ∧ ¬ IsSubstring "Android" ua ∧
      ¬ IsSubstring "Macintosh" ua) ∧
    (deviceType ua = "Linux" ↔ IsSubstring "Linux" ua ∧
      ¬ IsSubstring "iPhone" ua ∧ ¬ IsSubstring "iPad" ua ∧ ¬ IsSubstring "Android" ua ∧
      ¬ IsSubstring "Macintosh" ua ∧ ¬ IsSubstring "Windows" ua) ∧
    (deviceType ua = "Unknown" ↔
      ¬ IsSubstring "iPhone" ua ∧ ¬ IsSubstring "iPad" ua ∧ ¬ IsSubstring "Android" ua ∧
      ¬ IsSubstring "Macintosh" ua ∧ ¬ IsSubstring "Windows" ua ∧ ¬ IsSubstring "Linux" ua) := by
  simp only [← includes_iff, deviceType, device]
  split_ifs <;> simp_all

/-- C2: the browser label follows the table, first match wins: Chrome when
`ua` has `Chrome` and not `Edg`; else Safari when it has `Safari` and not
`Chrome`; else Firefox when it has `Firefox`; else Edge when it has `Edg`; else
Unknown. Two user agents that agree on which of the four browser tokens occur
get the same browser label, whatever device tokens they hold. -/
theorem browser_table (ua : String) :
    (browser ua = "Chrome" ↔ IsSubstring "Chrome" ua ∧ ¬ IsSubstring "Edg" ua) ∧
    (browser ua = "Safari" ↔ ¬ (IsSubstring "Chrome" ua ∧ ¬ IsSubstring "Edg" ua) ∧
      IsSubstring "Safari" ua ∧ ¬ IsSubstring "Chrome" ua) ∧
    (browser ua = "Firefox" ↔ ¬ (IsSubstring "Chrome" ua ∧ ¬ IsSubstring "Edg" ua) ∧
      ¬ (IsSubstring "Safari" ua ∧ ¬ IsSubstring "Chrome" ua) ∧ IsSubstring "Firefox" ua) ∧
    (browser ua = "Edge" ↔ ¬ (IsSubstring "Chrome" ua ∧ ¬ IsSubstring "Edg" ua) ∧
      ¬ (IsSubstring "Safari" ua ∧ ¬ IsSubstring "Chrome" ua) ∧ ¬ IsSubstring "Firefox" ua ∧
      IsSubstring "Edg" ua) ∧
    (browser ua = "Unknown" ↔ ¬ (IsSubstring "Chrome" ua ∧ ¬ IsSubstring "Edg" ua) ∧
      ¬ (IsSubstring "Safari" ua ∧ ¬ IsSubstring "Chrome" ua) ∧ ¬ IsSubstring "Firefox" ua ∧
      ¬ IsSubstring "Edg" ua) ∧
    (∀ ub : String, (∀ t ∈ browserTokens, (IsSubstring t ua ↔ IsSubstring t ub)) →
      browser ua = browser ub) := by
  refine ⟨?_, ?_, ?_, ?_, ?_, ?_⟩
  · simp only [← includes_iff, browser]
    split_ifs <;> simp_all
  · simp only [← includes_iff, browser]
    split_ifs <;> simp_all
  · simp only [← includes_iff, browser]
    split_ifs <;> simp_all
  · simp only [← includes_iff, browser]
    split_ifs <;> simp_all
  · simp only [← includes_iff, browser]
    split_ifs <;> simp_all
  · intro ub h
    have hC := h "Chrome" (by decide)
    have hS := h "Safari" (by decide)
    have hF := h "Firefox" (by decide)
    have hE := h "Edg" (by decide)
    simp only [← includes_iff, Bool.coe_iff_coe] at hC hS hF hE
    simp only [browser, hC, hS, hF, hE]

/-- Witness for C2: an iPhone and a Linux user agent with the same browser
tokens get the same browser label, here Safari. -/
theorem browser_table_witness :
    (∀ t ∈ browserTokens,
      (IsSubstring t "Mozilla/5.0 (iPhone) Safari/604.1" ↔
        IsSubstring t "Mozilla/5.0 (X11; Linux x86_64) Safari/604.1")) ∧
    browser "Mozilla/5.0 (iPhone) Safari/604.1" =
      browser "Mozilla/5.0 (X11; Linux x86_64) Safari/604.1" ∧
    deviceType "Mozilla/5.0 (iPhone) Safari/604.1" ≠
      deviceType "Mozilla/5.0 (X11; Linux x86_64) Safari/604.1" :=
  ⟨by decide,
   (browser_table "Mozilla/5.0 (iPhone) Safari/604.1").2.2.2.2.2
     "Mozilla/5.0 (X11; Linux x86_64) Safari/604.1" (by decide),
   by decide⟩

/-- C3, counterexample: a user agent that contains `Chrome`, `Edg` and
`Firefox` is labelled Firefox, not Edge: the `Firefox` test comes before the
`Edg` test in the chain. -/
theorem chrome_edg_not_always_edge :
    IsSubstring "Chrome" "Chrome Edg Firefox" ∧ IsSubstring "Edg" "Chrome Edg Firefox" ∧
    browser "Chrome Edg Firefox" = "Firefox" ∧ browser "Chrome Edg Firefox" ≠ "Edge" := by
  decide

/-- C3, amended: a user agent that contains both `Chrome` and `Edg` is never
labelled Chrome; it is labelled Edge when it does not contain `Firefox`, and
Firefox when it does. -/
theorem chrome_edg_browser (ua : String)
    (hC : IsSubstring "Chrome" ua) (hE : IsSubstring "Edg" ua) :
    browser ua ≠ "Chrome" ∧
    (¬ IsSubstring "Firefox" ua → browser ua = "Edge") ∧
    (IsSubstring "Firefox" ua → browser ua = "Firefox") := by
  simp only [← includes_iff] at hC hE ⊢
  simp [browser, hC, hE]
  split_ifs <;> simp_all

/-- Witness for C3, amended: the Edge user agent holds `Chrome` and `Edg`, no
`Firefox`, and is labelled Edge. -/
theorem chrome_edg_browser_witness :
    (IsSubstring "Chrome" edgeUserAgent ∧ IsSubstring "Edg" edgeUserAgent ∧
      ¬ IsSubstring "Firefox" edgeUserAgent) ∧
    browser edgeUserAgent = "Edge" :=
  ⟨by decide, (chrome_edg_browser edgeUserAgent (by decide) (by decide)).2.1 (by decide)⟩

/-- C4, counterexample: the Edge user agent contains both `Safari` and
`Chrome` and is labelled Edge, not Chrome: the Chrome row also requires that
`Edg` is absent. -/
theorem safari_chrome_not_always_chrome :
    IsSubstring "Safari" edgeUserAgent ∧ IsSubstring "Chrome" edgeUserAgent ∧
    browser edgeUserAgent = "Edge" ∧ browser edgeUserAgent ≠ "Chrome" := by
  decide

/-- C4, amended: a user agent that contains both `Safari` and `Chrome` is never
labelled Safari; it is labelled Chrome when it does not contain `Edg`; when it
contains `Edg` it is labelled Firefox if it contains `Firefox` and Edge
otherwise. -/
theorem safari_chrome_browser (ua : String)
    (hS : IsSubstring "Safari" ua) (hC : IsSubstring "Chrome" ua) :
    browser ua ≠ "Safari" ∧
    (¬ IsSubstring "Edg" ua → browser ua = "Chrome") ∧
    (IsSubstring "Edg" ua → ¬ IsSubstring "Firefox" ua → browser ua = "Edge") ∧
    (IsSubstring "Edg" ua → IsSubstring "Firefox" ua → browser ua = "Firefox") := by
  simp only [← includes_iff] at hC hS ⊢
  simp [browser, hC, hS]
  split_ifs <;> simp_all

/-- Witness for C4, amended: a Chrome-on-Windows user agent holds `Safari` and
`Chrome`, no `Edg`, and is labelled Chrome. -/
theorem safari_chrome_browser_witness :
    (IsSubstring "Safari" "Mozilla/5.0 (Windows NT 10.0) Chrome/120.0.0.0 Safari/537.36" ∧
      IsSubstring "Chrome" "Mozilla/5.0 (Windows NT 10.0) Chrome/120.0.0.0 Safari/537.36" ∧
      ¬ IsSubstring "Edg" "Mozilla/5.0 (Windows NT 10.0) Chrome/120.0.0.0 Safari/537.36") ∧
    browser "Mozilla/5.0 (Windows NT 10.0) Chrome/120.0.0.0 Safari/537.36" = "Chrome" :=
  ⟨by decide,
   (safari_chrome_browser "Mozilla/5.0 (Windows NT 10.0) Chrome/120.0.0.0 Safari/537.36"
     (by decide) (by decide)).2.1 (by decide)⟩

/-- C5: the classifier is total: every user agent gets a device label and a
browser label from the closed lists; the empty string, and every string that
contains none of the ten tokens, is classified `(Unknown, Unknown)`. -/
theorem classify_total (ua : String) :
    deviceType ua ∈ ["iPhone", "iPad", "Android", "Mac", "Windows PC", "Linux", "Unknown"] ∧
    browser ua ∈ ["Chrome", "Safari", "Firefox", "Edge", "Unknown"] ∧
    classify "" = ("Unknown", "Unknown") ∧
    (FreeOf (deviceTokens ++ browserTokens) ua → classify ua = ("Unknown", "Unknown")) := by
  refine ⟨?_, ?_, by decide, ?_⟩
  · simp only [deviceType, device]
    split_ifs <;> simp
  · simp only [browser]
    split_ifs <;> simp
  · intro h
    have h1 := h "iPhone" (by decide)
    have h2 := h "iPad" (by decide)
    have h3 := h "Android" (by decide)
    have h4 := h "Macintosh" (by decide)
    have h5 := h "Windows" (by decide)
    have h6 := h "Linux" (by decide)
    have h7 := h "Chrome" (by decide)
    have h8 := h "Safari" (by decide)
    have h9 := h "Firefox" (by decide)
    have h10 := h "Edg" (by decide)
    simp only [← includes_iff, Bool.not_eq_true] at h1 h2 h3 h4 h5 h6 h7 h8 h9 h10
    simp [classify, deviceType, device, browser, h1, h2, h3, h4, h5, h6, h7, h8, h9, h10]

/-- Witness for C5: a lower-case, token-free user agent is classified
`(Unknown, Unknown)`. -/
theorem classify_total_witness :
    FreeOf (deviceTokens ++ browserTokens) "curl/8.4.0 (iphone; chrome; edg)" ∧
    classify "curl/8.4.0 (iphone; chrome; edg)" = ("Unknown", "Unknown") :=
  ⟨by decide, (classify_total "curl/8.4.0 (iphone; chrome; edg)").2.2.2 (by decide)⟩

/-- C6: the three user agents of the end-to-end scenario: with parts `a`, `b`,
`c` that contain no token of the two tables other than the two shown,
`a ++ "iPhone" ++ b ++ "Safari" ++ c` is classified `(iPhone, Safari)`,
`a ++ "Windows" ++ b ++ "Chrome" ++ c` is classified `(Windows PC, Chrome)` and
`a ++ "Android" ++ b ++ "Firefox" ++ c` is classified `(Android, Firefox)`. -/
theorem scenario_classification (a b c : String) :
    (FreeOf (otherTokens ["iPhone", "Safari"]) a → FreeOf (otherTokens ["iPhone", "Safari"]) b →
      FreeOf (otherTokens ["iPhone", "Safari"]) c →
      classify (a ++ "iPhone" ++ b ++ "Safari" ++ c) = ("iPhone", "Safari")) ∧
    (FreeOf (otherTokens ["Windows", "Chrome"]) a → FreeOf (otherTokens ["Windows", "Chrome"]) b →
      FreeOf (otherTokens ["Windows", "Chrome"]) c →
      classify (a ++ "Windows" ++ b ++ "Chrome" ++ c) = ("Windows PC", "Chrome")) ∧
    (FreeOf (otherTokens ["Android", "Firefox"]) a → FreeOf (otherTokens ["Android", "Firefox"]) b →
      FreeOf (otherTokens ["Android", "Firefox"]) c →
      classify (a ++ "Android" ++ b ++ "Firefox" ++ c) = ("Android", "Firefox")) := by
  refine ⟨fun ha hb hc => ?_, fun ha hb hc => ?_, fun ha hb hc => ?_⟩
  · have p1 := includes_first_token a "iPhone" b "Safari" c
    have p2 := includes_second_token a "iPhone" b "Safari" c
    have n1 := includes_between_tokens "Chrome" a "iPhone" b "Safari" c _ _ _ _ rfl rfl
      (by decide) (by decide) (fun _ => rfl) (fun _ => rfl)
      (ha _ (by decide)) (hb _ (by decide)) (hc _ (by decide))
    simp [classify, deviceType, device, browser, p1, p2, n1]
  · have p1 := includes_first_token a "Windows" b "Chrome" c
    have p2 := includes_second_token a "Windows" b "Chrome" c
    have n1 := includes_between_tokens "iPhone" a "Windows" b "Chrome" c _ _ _ _ rfl rfl
      (by decide) (by decide) (fun _ => rfl) (fun _ => rfl)
      (ha _ (by decide)) (hb _ (by decide)) (hc _ (by decide))
    have n2 := includes_between_tokens "iPad" a "Windows" b "Chrome" c _ _ _ _ rfl rfl
      (by decide) (by decide) (fun _ => rfl) (fun _ => rfl)
      (ha _ (by decide)) (hb _ (by decide)) (hc _ (by decide))
    have n3 := includes_between_tokens "Android" a "Windows" b "Chrome" c _ _ _ _ rfl rfl
      (by decide) (by decide) (fun _ => rfl) (fun _ => rfl)
      (ha _ (by decide)) (hb _ (by decide)) (hc _ (by decide))
    have n4 := includes_between_tokens "Macintosh" a "Windows" b "Chrome" c _ _ _ _ rfl rfl
      (by decide) (by decide) (fun _ => rfl) (fun _ => rfl)
      (ha _ (by decide)) (hb _ (by decide)) (hc _ (by decide))
    have n5 := includes_between_tokens "Edg" a "Windows" b "Chrome" c _ _ _ _ rfl rfl
      (by decide) (by decide) (fun _ => rfl) (fun _ => rfl)
      (ha _ (by decide)) (hb _ (by decide)) (hc _ (by decide))
    simp [classify, deviceType, device, browser, p1, p2, n1, n2, n3, n4, n5]
  · have p1 := includes_first_token a "Android" b "Firefox" c
    have p2 := includes_second_token a "Android" b "Firefox" c
    have n1 := includes_between_tokens "iPhone" a "Android" b "Firefox" c _ _ _ _ rfl rfl
      (by decide) (by decide) (fun _ => rfl) (fun _ => rfl)
      (ha _ (by decide)) (hb _ (by decide)) (hc _ (by decide))
    have n2 := includes_between_tokens "iPad" a "Android" b "Firefox" c _ _ _ _ rfl rfl
      (by decide) (by decide) (fun _ => rfl) (fun _ => rfl)
      (ha _ (by decide)) (hb _ (by decide)) (hc _ (by decide))
    have n3 := includes_between_tokens "Chrome" a "Android" b "Firefox" c _ _ _ _ rfl rfl
      (by decide) (by decide) (fun _ => rfl) (fun _ => rfl)
      (ha _ (by decide)) (hb _ (by decide)) (hc _ (by decide))
    have n4 := includes_between_tokens "Safari" a "Android" b "Firefox" c _ _ _ _ rfl rfl
      (by decide) (by decide) (fun _ => rfl) (fun _ => rfl)
      (ha _ (by decide)) (hb _ (by decide)) (hc _ (by decide))
    simp [classify, deviceType, device, browser, p1, p2, n1, n2, n3, n4]

/-- Witness for C6: three concrete user agents of the three shapes. -/
theorem scenario_classification_witness :
    classify ("Mozilla/5.0 (" ++ "iPhone" ++ "; CPU OS 16_0) Version/16.0 " ++ "Safari" ++ "/604.1")
      = ("iPhone", "Safari") ∧
    classify ("Mozilla/5.0 (" ++ "Windows" ++ " NT 10.0; Win64; x64) " ++ "Chrome" ++ "/120.0.0.0")
      = ("Windows PC", "Chrome") ∧
    classify ("Mozilla/5.0 (" ++ "Android" ++ " 13; Mobile; rv:109.0) Gecko/109.0 " ++ "Firefox" ++ "/109.0")
      = ("Android", "Firefox") :=
  ⟨(scenario_classification "Mozilla/5.0 (" "; CPU OS 16_0) Version/16.0 " "/604.1").1
      (by decide) (by decide) (by decide),
   (scenario_classification "Mozilla/5.0 (" " NT 10.0; Win64; x64) " "/120.0.0.0").2.1
      (by decide) (by decide) (by decide),
   (scenario_classification "Mozilla/5.0 (" " 13; Mobile; rv:109.0) Gecko/109.0 " "/109.0").2.2
      (by decide) (by decide) (by decide)⟩

end updateClients

/-! ## `updateStatus`: uptime and signal quality -/

namespace updateStatus
open Binary64

theorem log2Fuel_lt (fuel : Nat) : ∀ (n j : Nat), 0 < j → n < 2 ^ j → log2Fuel fuel n < j := by
  induction fuel with
  | zero => intro n j hj _; simpa [log2Fuel] using hj
  | succ fuel ih =>
    intro n j hj hn
    unfold log2Fuel
    split_ifs with h2
    · exact hj
    · obtain ⟨i, rfl⟩ : ∃ i, j = i + 1 := ⟨j - 1, by omega⟩
      have hi : 0 < i := by
        rcases Nat.eq_zero_or_pos i with h0 | h0
        · subst h0; simp at hn; omega
        · exact h0
      have hhalf : n / 2 < 2 ^ i := by
        rw [Nat.div_lt_iff_lt_mul (by decide)]
        rw [pow_succ] at hn
        exact hn
      have := ih (n / 2) i hi hhalf
      omega

theorem floorLog2_lt (n j : Nat) (hj : 0 < j) (hn : n < 2 ^ j) : floorLog2 n < j :=
  log2Fuel_lt n n j hj hn

theorem roundHalfEven_le (a b : Nat) : roundHalfEven a b ≤ a / b + 1 := by
  unfold roundHalfEven; split_ifs <;> omega

theorem roundHalfEven_ge (a b : Nat) : a / b ≤ roundHalfEven a b := by
  unfold roundHalfEven; split_ifs <;> omega

theorem roundHalfEven_up (a b : Nat) (h : roundHalfEven a b ≠ a / b) : b ≤ 2 * (a % b) := by
  unfold roundHalfEven at h; split_ifs at h <;> omega

theorem roundHalfEven_div (a b P : Nat) (hb : 0 < b) (hP : b < 2 * P) :
    roundHalfEven (a * P) b / P = a / b := by
  have hPpos : 0 < P := by omega
  have hdm := Nat.div_add_mod (a * P) b
  have hr := Nat.mod_lt (a * P) hb
  have hab := Nat.div_add_mod a b
  have ht := Nat.mod_lt a hb
  set Q := a * P / b
  set r := a * P % b
  set q := a / b
  set t := a % b
  have e1 : a * P = b * q * P + t * P := by rw [← hab]; ring
  have e2 : t * P + P ≤ b * P := by
    have : (t + 1) * P ≤ b * P := Nat.mul_le_mul_right P ht
    linarith
  apply Nat.div_eq_of_lt_le
  · have : q * P ≤ Q := by
      by_contra hc
      push_neg at hc
      have : b * (Q + 1) ≤ b * (q * P) := Nat.mul_le_mul_left b hc
      nlinarith
    exact le_trans this (roundHalfEven_ge _ _)
  · by_cases hm : roundHalfEven (a * P) b = Q
    · rw [hm]
      by_contra hc
      push_neg at hc
      have : b * ((q + 1) * P) ≤ b * Q := Nat.mul_le_mul_left b hc
      nlinarith
    · have hup : b ≤ 2 * r := roundHalfEven_up _ _ hm
      have hle := roundHalfEven_le (a * P) b
      by_contra hc
      push_neg at hc
      have h3 : (q + 1) * P ≤ Q + 1 := le_trans hc hle
      have : b * ((q + 1) * P) ≤ b * (Q + 1) := Nat.mul_le_mul_left b h3
      nlinarith

theorem mathFloor_roundNearest (a b : Nat) (hb : 0 < b) (hk : floorLog2Ratio a b ≤ 51)
    (hP : b < 2 * 2 ^ (52 - floorLog2Ratio a b).toNat) :
    mathFloor (roundNearest a b) = a / b := by
  unfold mathFloor roundNearest
  have e0 : (floorLog2Ratio a b - 52).toNat = 0 := by omega
  simp only [e0, pow_zero, mul_one]
  exact roundHalfEven_div a b _ hb hP

theorem floorLog2Ratio_le (a b : Nat) :
    floorLog2Ratio a b ≤ (floorLog2 a : Int) - (floorLog2 b : Int) := by
  unfold floorLog2Ratio; split_ifs <;> omega

theorem jsonNumber_exact (n : Nat) (hn : n ≤ 2 ^ 53) : jsonNumber n = some n := by
  have hla : floorLog2 n < 54 := floorLog2_lt n 54 (by decide) (by omega)
  have hval : (roundNearest n 1).1 / 2 ^ (roundNearest n 1).2 = n := by
    by_cases hk : floorLog2Ratio n 1 ≤ 51
    · have := mathFloor_roundNearest n 1 (by decide) hk (by
        have : 0 < 2 ^ (52 - floorLog2Ratio n 1).toNat := Nat.pow_pos (by decide)
        omega)
      simpa [mathFloor] using this
    · have hl1 : floorLog2 1 = 0 := by decide
      have hle := floorLog2Ratio_le n 1
      rw [hl1] at hle
      have hcases : floorLog2Ratio n 1 = 52 ∨ floorLog2Ratio n 1 = 53 := by omega
      rcases hcases with h52 | h53
      · simp [roundNearest, h52, roundHalfEven, Nat.mod_one]
      · have hn53 : n = 2 ^ 53 := by
          have h := h53
          unfold floorLog2Ratio at h
          rw [hl1] at h
          split_ifs at h with hc
          · have hla53 : floorLog2 n = 53 := by omega
            rw [hla53] at hc
            simp at hc
            omega
          · omega
        subst hn53
        decide
  unfold jsonNumber
  rw [hval, if_pos (by omega)]

theorem floorDivide_small (a b j : Nat) (hb : 0 < b) (ha : a < 2 ^ (j + 1))
    (hj : (j : Int) - floorLog2 b ≤ 51)
    (hP : b < 2 * 2 ^ (52 - ((j : Int) - floorLog2 b)).toNat) :
    mathFloor (divide a b) = a / b := by
  have hla : floorLog2 a < j + 1 := floorLog2_lt a (j + 1) (by omega) ha
  have hle := floorLog2Ratio_le a b
  have hk : floorLog2Ratio a b ≤ (j : Int) - floorLog2 b := by omega
  refine mathFloor_roundNearest a b hb (by omega) (lt_of_lt_of_le hP ?_)
  apply Nat.mul_le_mul_left
  apply Nat.pow_le_pow_right (by decide)
  omega

theorem hours_exact (u : Nat) (hu : u ≤ 2 ^ 53) : mathFloor (divide u 3600) = u / 3600 := by
  rcases Nat.lt_or_ge u (2 ^ 53) with h | h
  · exact floorDivide_small u 3600 52 (by decide) h (by decide) (by decide)
  · have : u = 2 ^ 53 := by omega
    subst this
    decide

theorem minutes_exact (r : Nat) (hr : r < 3600) : mathFloor (divide r 60) = r / 60 :=
  floorDivide_small r 60 11 (by decide) (by omega) (by decide) (by decide)

/-- C9, counterexample: the uptime 10^19, an integer that a double holds
exactly, is shown as 2777777777777778 h 46 m 40 s, and these parts do not
recombine to it (the rounded quotient 10^19 / 3600 is one hour too high); and
the uptime 2^53 + 1 is read as the double 2^53, so the seconds shown are 32
where (2^53 + 1) mod 60 is 33. -/
theorem uptime_parts_beyond_double :
    jsonNumber (10 ^ 19) = some (10 ^ 19) ∧
    hours (10 ^ 19) = some 2777777777777778 ∧ 10 ^ 19 / 3600 = 2777777777777777 ∧
    minutes (10 ^ 19) = some 46 ∧ seconds (10 ^ 19) = some 40 ∧
    2777777777777778 * 3600 + 46 * 60 + 40 ≠ 10 ^ 19 ∧
    jsonNumber (2 ^ 53 + 1) = some (2 ^ 53) ∧
    seconds (2 ^ 53 + 1) = some 32 ∧ (2 ^ 53 + 1) % 60 = 33 := by
  decide

/-- C9, amended: for every uptime in whole seconds up to 2^53 the displayed
hours, minutes and seconds are floor(uptime / 3600), floor((uptime mod 3600) /
60) and uptime mod 60; they recombine to the uptime, with minutes and seconds
below 60, and they are the only such decomposition. -/
theorem uptime_decomposition_bounded (uptime : Nat) (hu : uptime ≤ 2 ^ 53) :
    hours uptime = some (uptime / 3600) ∧
    minutes uptime = some (uptime % 3600 / 60) ∧
    seconds uptime = some (uptime % 60) ∧
    uptime / 3600 * 3600 + uptime % 3600 / 60 * 60 + uptime % 60 = uptime ∧
    uptime % 3600 / 60 < 60 ∧ uptime % 60 < 60 ∧
    (∀ h m s : Nat, m < 60 → s < 60 → h * 3600 + m * 60 + s = uptime →
      hours uptime = some h ∧ minutes uptime = some m ∧ seconds uptime = some s) := by
  have hH : hours uptime = some (uptime / 3600) := by
    simp [hours, jsonNumber_exact uptime hu, hours_exact uptime hu]
  have hM : minutes uptime = some (uptime % 3600 / 60) := by
    simp [minutes, jsonNumber_exact uptime hu,
      minutes_exact (uptime % 3600) (Nat.mod_lt _ (by decide))]
  have hS : seconds uptime = some (uptime % 60) := by
    simp [seconds, jsonNumber_exact uptime hu]
  refine ⟨hH, hM, hS, by omega, by omega, by omega, ?_⟩
  intro h m s hm hs e
  rw [hH, hM, hS]
  refine ⟨?_, ?_, ?_⟩ <;> congr 1 <;> omega

/-- Witness for C9, amended: 3725 seconds are shown as 1 h 2 m 5 s, and
(1, 2, 5) is the decomposition of 3725. -/
theorem uptime_decomposition_bounded_witness :
    (3725 ≤ 2 ^ 53 ∧ 2 < 60 ∧ 5 < 60 ∧ 1 * 3600 + 2 * 60 + 5 = 3725) ∧
    (hours 3725 = some 1 ∧ minutes 3725 = some 2 ∧ seconds 3725 = some 5) :=
  ⟨by decide,
   (uptime_decomposition_bounded 3725 (by decide)).2.2.2.2.2.2 1 2 5
     (by decide) (by decide) (by decide)⟩

/-- C10: the signal-quality label is a total step function of `rssi`: Poor
exactly below -80, Fair exactly on [-80, -70), Good exactly on [-70, -60),
Excellent exactly from -60 up; and it is monotone: a higher `rssi` never gets
a lower-ranked label in the order Poor < Fair < Good < Excellent. -/
theorem signalQuality_steps (rssi : Int) :
    signalQuality rssi ∈ ["Poor", "Fair", "Good", "Excellent"] ∧
    (signalQuality rssi = "Poor" ↔ rssi < -80) ∧
    (signalQuality rssi = "Fair" ↔ -80 ≤ rssi ∧ rssi < -70) ∧
    (signalQuality rssi = "Good" ↔ -70 ≤ rssi ∧ rssi < -60) ∧
    (signalQuality rssi = "Excellent" ↔ -60 ≤ rssi) ∧
    (∀ r : Int, rssi ≤ r → qualityRank (signalQuality rssi) ≤ qualityRank (signalQuality r)) := by
  refine ⟨?_, ?_, ?_, ?_, ?_, ?_⟩
  · unfold signalQuality; split_ifs <;> simp
  · unfold signalQuality; split_ifs <;> simp <;> omega
  · unfold signalQuality; split_ifs <;> simp <;> omega
  · unfold signalQuality; split_ifs <;> simp <;> omega
  · unfold signalQuality; split_ifs <;> simp <;> omega
  · intro r hr
    unfold signalQuality
    split_ifs <;> simp [qualityRank] <;> omega

/-- Witness for C10: -75 dBm is Fair, -65 dBm is Good, and Fair ranks below
Good. -/
theorem signalQuality_steps_witness :
    ((-75 : Int) ≤ -65 ∧ signalQuality (-75) = "Fair" ∧ signalQuality (-65) = "Good") ∧
    qualityRank (signalQuality (-75)) ≤ qualityRank (signalQuality (-65)) :=
  ⟨by decide, (signalQuality_steps (-75)).2.2.2.2.2 (-65) (by decide)⟩

end updateStatus

/-! ## Request log: ring-buffer invariants -/

theorem recordAll_append_one (lim : LogLimits) (rqs : List Request) (rq : Request) :
    recordAll lim (rqs ++ [rq]) = record lim (recordAll lim rqs) rq := by
  simp [recordAll, List.foldl_append]

theorem incrementCount_of_lt (lim : LogLimits) (count : Nat) (h : count < counterMax lim) :
    incrementCount lim count = count + 1 := by
  unfold incrementCount
  unfold counterMax at h
  cases lim.counterOverflow with
  | wrap => exact Nat.mod_eq_of_lt (by omega)
  | saturate => simp [counterMax, h]

/-- Below the integer width boundary the counter equals the number of calls. -/
theorem recordAll_totalCount (lim : LogLimits) (rqs : List Request)
    (hfit : rqs.length ≤ counterMax lim) :
    (recordAll lim rqs).totalCount = rqs.length := by
  induction rqs using List.reverseRecOn with
  | nil => rfl
  | append_singleton rqs rq ih =>
    rw [List.length_append, List.length_singleton] at hfit
    rw [recordAll_append_one]
    simp only [record, List.length_append, List.length_singleton]
    rw [ih (by omega)]
    exact incrementCount_of_lt lim _ (by omega)

/-- C8, counterexample: with an 8-bit counter, after 256 calls `totalCount` is
0 when the counter wraps and 255 when it saturates, not 256; and the wrapping
counter decreases, from 255 to 0, on the 256th call. -/
theorem counter_boundary_miscount :
    (List.replicate 256 pollRequest).length = 256 ∧
    (recordAll (byteCounterLimits CounterOverflow.wrap)
      (List.replicate 256 pollRequest)).totalCount = 0 ∧
    (recordAll (byteCounterLimits CounterOverflow.saturate)
      (List.replicate 256 pollRequest)).totalCount = 255 ∧
    (recordAll (byteCounterLimits CounterOverflow.wrap)
      (List.replicate 255 pollRequest)).totalCount = 255 := by
  decide

/-- C8, amended: starting from the empty log, after any sequence of `m` calls
to `record` with `m` at most the maximum of the counter, `totalCount` equals
`m`, and `listRecent` reports that value; each call made while the counter is
below its maximum increments it by exactly one; a saturating counter never
decreases; and the value does not depend on the ring-buffer capacity. -/
theorem totalCount_eq_calls (lim : LogLimits) (rqs : List Request)
    (hfit : rqs.length ≤ counterMax lim) :
    (recordAll lim rqs).totalCount = rqs.length ∧
    (listRecent lim (recordAll lim rqs)).totalCount = rqs.length ∧
    (∀ (log : RequestLog) (rq : Request), log.totalCount < counterMax lim →
      (record lim log rq).totalCount = log.totalCount + 1) ∧
    (lim.counterOverflow = CounterOverflow.saturate →
      ∀ (log : RequestLog) (rq : Request), log.totalCount ≤ (record lim log rq).totalCount) ∧
    (∀ capacity2 : Nat,
      (recordAll { lim with capacity := capacity2 } rqs).totalCount =
        (recordAll lim rqs).totalCount) := by
  refine ⟨recordAll_totalCount lim rqs hfit, recordAll_totalCount lim rqs hfit, ?_, ?_, ?_⟩
  · intro log rq h
    exact incrementCount_of_lt lim _ h
  · intro hs log rq
    simp only [record, incrementCount, hs]
    split_ifs <;> omega
  · intro capacity2
    rw [recordAll_totalCount lim rqs hfit]
    exact recordAll_totalCount { lim with capacity := capacity2 } rqs hfit

/-- Witness for C8, amended: four calls on a log with a 32-bit counter leave
`totalCount` at 4. -/
theorem totalCount_eq_calls_witness :
    sampleRequests.length ≤ counterMax sampleLimits ∧
    (recordAll sampleLimits sampleRequests).totalCount = 4 :=
  ⟨by decide, (totalCount_eq_calls sampleLimits sampleRequests (by decide)).1⟩
